import Mathlib

/-!
Shallow embedding of `src/stage_4/dashboard.py`, a Streamlit dashboard over a
pandas dataframe of Google Play Store app records.

Modelling conventions:
* a dataframe row is a structure; the loaded dataframe is a list of rows
  together with the column-presence information the script inspects;
* `Installs` is a natural number, money and decimal columns are rationals
  (pandas arithmetic on these columns is exact for the claims at issue);
* dates are integers in `YYYYMMDD` encoding, which is order-isomorphic to
  calendar dates, so `Timestamp.dt.year` becomes integer division by 10000;
* pandas `NaN`/non-finite results of a mean or a percent change are
  modelled by `Option ℚ` with `none` for the non-finite case;
* `groupby(key)` uses the pandas default `sort=True`: distinct keys in
  ascending order.  String keys are ordered bytewise, written over
  `Char.toNat` so that concrete instances evaluate by kernel reduction.
  `sort_values` is an unstable sort in pandas, so tie order among equal
  sort keys is unspecified; a stable insertion sort is used here and no
  theorem below depends on tie order.
-/

namespace Dashboard

/-- The four economic zone values of the data model (spec §3 and the
`zone_options` list on line 49 of `dashboard.py`). -/
inductive Zone where
  | Developed
  | Emerging
  | Frontier
  | Other
deriving DecidableEq

/-- All zone values, in the alphabetical order in which `pd.get_dummies`
creates the corresponding indicator columns. -/
def Zone.all : List Zone := [Zone.Developed, Zone.Emerging, Zone.Frontier, Zone.Other]

/-- Label of a zone indicator column once the `economic_zone_` prefix is
stripped (the `zone_mapping` dict of lines 38-43, inverted by the
`str.replace` on line 119). -/
def zoneName : Zone → String
  | Zone.Developed => "Developed"
  | Zone.Emerging => "Emerging"
  | Zone.Frontier => "Frontier"
  | Zone.Other => "Other"

/-- One row of the parquet file (spec §3). -/
structure Row where
  Category : String
  AppName : String
  DeveloperId : String
  geo_region : String
  economic_zone : Zone
  Installs : ℕ
  Price : ℚ
  Rating : ℚ
  Released : ℤ
deriving DecidableEq

/-- The loaded dataframe: its rows, plus whether the `economic_zone` column
is present in the file (line 35 checks `'economic_zone' in df.columns`). -/
structure Table where
  rows : List Row
  hasZoneColumn : Bool
deriving DecidableEq

/-- Lines 20-27: `load_data` returns the parsed table when the file exists,
and otherwise displays `st.error` and returns `None`. -/
def load_data (fileExists : Bool) (fileContents : Table) : Option Table :=
  if fileExists then some fileContents else none

/-- Line 26: the `st.error` call runs exactly on the missing-file branch. -/
def load_error_reported (fileExists : Bool) : Bool := !fileExists

/-- A row after preprocessing: line 32 adds the derived `revenue` column. -/
structure ERow extends Row where
  revenue : ℚ
deriving DecidableEq

/-- Line 32: `df['revenue'] = df['Installs'] * df['Price']`, per row. -/
def enrichRow (r : Row) : ERow := { r with revenue := (r.Installs : ℚ) * r.Price }

/-- The dataframe after preprocessing: rows carrying `revenue`, plus the
list of `economic_zone_*` indicator columns present in the frame.  Row
filtering never changes this column list. -/
structure ETable where
  rows : List ERow
  zoneCols : List Zone
deriving DecidableEq

/-- Value of the indicator column `economic_zone_z` for a row, as
`pd.get_dummies` produces it: true exactly when the row's original zone
is `z`. -/
def indicator (z : Zone) (r : ERow) : Bool := r.economic_zone == z

/-- Indicator columns created by `pd.get_dummies` (line 36): one per zone
value actually occurring in the data when the `economic_zone` column is
present, and none otherwise. -/
def presentZoneCols (t : Table) : List Zone :=
  if t.hasZoneColumn then
    Zone.all.filter (fun z => t.rows.any (fun r => r.economic_zone == z))
  else []

/-- Lines 32-36: preprocessing of a successfully loaded table. -/
def enrich (t : Table) : ETable :=
  { rows := t.rows.map enrichRow, zoneCols := presentZoneCols t }

/-- Outcome of the module-level script body applied to the value returned by
`load_data`.  Line 32 subscripts `df` unconditionally, so a `None` result
raises `TypeError: 'NoneType' object is not subscriptable` — a crash, not a
skip. -/
inductive ScriptOutcome where
  | crash
  | page (t : ETable)
deriving DecidableEq

/-- Lines 29-36: the script applies preprocessing directly to the result of
`load_data`, with no guard for the `None` case. -/
def script_preprocess (fileExists : Bool) (fileContents : Table) : ScriptOutcome :=
  match load_data fileExists fileContents with
  | none => ScriptOutcome.crash
  | some t => ScriptOutcome.page (enrich t)

/-- Sidebar state (lines 46-51): the three multiselects and the date-range
picker, with dates in the same `YYYYMMDD` integer encoding as
`Row.Released`. -/
structure Selection where
  categories : List String
  regions : List String
  zones : List Zone
  dateStart : ℤ
  dateEnd : ℤ

/-- Line 53: `zone_columns = [zone_mapping[z] for z in zone_filter if
zone_mapping[z] in df.columns]`. -/
def zone_columns (t : ETable) (zf : List Zone) : List Zone :=
  zf.filter (fun z => decide (z ∈ t.zoneCols))

/-- Lines 56-61: the boolean row mask of the filter, with `zcols` the
`zone_columns` list.  The zone conjunct is the literal
`df[zone_columns].any(axis=1) if zone_columns else True`, and `between` is
inclusive at both ends. -/
def rowMask (zcols : List Zone) (s : Selection) (r : ERow) : Bool :=
  decide (r.Category ∈ s.categories) &&
  decide (r.geo_region ∈ s.regions) &&
  (if zcols.isEmpty then true else zcols.any (fun z => indicator z r)) &&
  (decide (s.dateStart ≤ r.Released) && decide (r.Released ≤ s.dateEnd))

/-- Lines 56-61: `df_filtered`.  Filtering rows leaves the column list
unchanged. -/
def df_filtered (t : ETable) (s : Selection) : ETable :=
  { rows := t.rows.filter (rowMask (zone_columns t s.zones) s),
    zoneCols := t.zoneCols }

/-- Bytewise comparison of character lists, the order Python/pandas use on
strings. -/
def charsLe : List Char → List Char → Bool
  | [], _ => true
  | _ :: _, [] => false
  | c :: cs, d :: ds =>
    if c.toNat < d.toNat then true
    else if d.toNat < c.toNat then false
    else charsLe cs ds

/-- Bytewise string comparison. -/
def strLe (a b : String) : Bool := charsLe a.data b.data

/-- String order as a binary relation, for sorted group keys. -/
def strOrd (a b : String) : Prop := strLe a b = true

instance : DecidableRel strOrd := fun a b => Bool.decEq (strLe a b) true

/-- Order on integers as a named relation, for sorted group keys. -/
def intLe (a b : ℤ) : Prop := a ≤ b

instance : DecidableRel intLe := fun a b => Int.decLe a b

instance : IsTrans ℤ intLe := ⟨fun _ _ _ h h' => le_trans h h'⟩

instance : IsTotal ℤ intLe := ⟨fun a b => Int.le_total a b⟩

instance : IsAntisymm ℤ intLe := ⟨fun _ _ h h' => Int.le_antisymm h h'⟩

/-- Lexicographic order on `(geo_region, Category)` pairs, the pandas group
key order for a two-column `groupby`. -/
def pairLeB (a b : String × String) : Bool :=
  if a.1 = b.1 then strLe a.2 b.2 else strLe a.1 b.1

/-- Pair order as a binary relation. -/
def pairOrd (a b : String × String) : Prop := pairLeB a b = true

instance : DecidableRel pairOrd := fun a b => Bool.decEq (pairLeB a b) true

/-- Pandas `groupby(key)[val].sum()` over a list: the distinct keys in
ascending order (`sort=True`, the pandas default), each paired with the sum
of `val` over its group. -/
def groupSum {α κ : Type} [DecidableEq κ] (le : κ → κ → Prop) [DecidableRel le]
    (key : α → κ) (val : α → ℚ) (l : List α) : List (κ × ℚ) :=
  (List.insertionSort le ((l.map key).dedup)).map
    (fun k => (k, ((l.filter (fun a => decide (key a = k))).map val).sum))

/-- Line 75: `df_filtered['revenue'].sum()`. -/
def total_revenue (rows : List ERow) : ℚ := (rows.map (fun r => r.revenue)).sum

/-- Line 79: `df_filtered['Installs'].sum()`. -/
def total_installs (rows : List ERow) : ℕ := (rows.map (fun r => r.Installs)).sum

/-- Line 83: `df_filtered['Rating'].mean()`; the mean of an empty column is
`NaN`, modelled as `none`. -/
def avg_rating (rows : List ERow) : Option ℚ :=
  if rows.isEmpty then none
  else some ((rows.map (fun r => r.Rating)).sum / (rows.length : ℚ))

/-- Line 90: `df_filtered.groupby('Category')['revenue'].sum()`. -/
def category_revenue (rows : List ERow) : List (String × ℚ) :=
  groupSum strOrd (fun r => r.Category) (fun r => r.revenue) rows

/-- Descending-by-summed-revenue order on `(Developer Id, revenue)` pairs. -/
def revDesc (a b : String × ℚ) : Prop := b.2 ≤ a.2

instance : DecidableRel revDesc := fun a b => inferInstanceAs (Decidable (b.2 ≤ a.2))

instance : IsTotal (String × ℚ) revDesc := ⟨fun a b => le_total b.2 a.2⟩

instance : IsTrans (String × ℚ) revDesc := ⟨fun _ _ _ h h' => le_trans h' h⟩

/-- Pandas `Series.nlargest n` with the default `keep='first'`: a stable
sort by value descending, then the first `n` entries. -/
def nlargest (n : ℕ) (l : List (String × ℚ)) : List (String × ℚ) :=
  (List.insertionSort revDesc l).take n

/-- Line 107: `df_filtered.groupby('Developer Id')['revenue'].sum().nlargest(10)`. -/
def top_devs (rows : List ERow) : List (String × ℚ) :=
  nlargest 10 (groupSum strOrd (fun r => r.DeveloperId) (fun r => r.revenue) rows)

/-- Lines 116-120: the `Economic Zone Revenue Share` panel sums each
`economic_zone_*` indicator column of the filtered view (booleans summing
as 0/1) and labels the result `Revenue` with the prefix stripped. -/
def zone_revenue (t : ETable) : List (String × ℚ) :=
  t.zoneCols.map
    (fun z => (zoneName z, (t.rows.map (fun r => if indicator z r then (1 : ℚ) else 0)).sum))

/-- Line 125: `df_filtered.groupby('geo_region')['revenue'].sum()`. -/
def market_share (rows : List ERow) : List (String × ℚ) :=
  groupSum strOrd (fun r => r.geo_region) (fun r => r.revenue) rows

/-- Line 134: `df_filtered.groupby('Released')['revenue'].sum()`. -/
def historical_revenue (rows : List ERow) : List (ℤ × ℚ) :=
  groupSum intLe (fun r => r.Released) (fun r => r.revenue) rows

/-- Line 135: `.dt.year` of a `YYYYMMDD`-encoded date. -/
def yearOf (d : ℤ) : ℤ := d / 10000

/-- Line 136, inner part: `historical_revenue.groupby('year')['revenue'].sum()`. -/
def yearly_revenue (rows : List ERow) : List (ℤ × ℚ) :=
  groupSum intLe (fun p => yearOf p.1) (fun p => p.2) (historical_revenue rows)

/-- Pandas `pct_change` against the previous entry, followed by `fillna(0)`
and `* 100`.  A zero previous value and equal current value gives `0/0 =
NaN`, which `fillna` turns into `0`; a zero previous value and different
current value gives a non-finite `±inf`, modelled as `none`, which `fillna`
leaves untouched. -/
def pctGo (prev : ℚ) : List (ℤ × ℚ) → List (ℤ × Option ℚ)
  | [] => []
  | (y, v) :: rest =>
    (y, if prev = 0 then (if v = 0 then some 0 else none)
        else some ((v - prev) / prev * 100)) :: pctGo v rest

/-- Line 136: the yearly growth-rate series.  The first year has no prior
year, so its `NaN` percent change is filled with `0`. -/
def yearly_growth (rows : List ERow) : List (ℤ × Option ℚ) :=
  match yearly_revenue rows with
  | [] => []
  | (y, v) :: rest => (y, some 0) :: pctGo v rest

/-- One row of the `opportunity_score` frame (lines 142-145). -/
structure OppRow where
  geo_region : String
  Category : String
  revenue : ℚ
  Installs : ℚ
  score : ℚ
deriving DecidableEq

/-- Descending-by-score order on opportunity rows. -/
def scoreDesc (a b : OppRow) : Prop := b.score ≤ a.score

instance : DecidableRel scoreDesc := fun a b => inferInstanceAs (Decidable (b.score ≤ a.score))

instance : IsTotal OppRow scoreDesc := ⟨fun a b => le_total b.score a.score⟩

instance : IsTrans OppRow scoreDesc := ⟨fun _ _ _ h h' => le_trans h' h⟩

/-- Lines 142-145: group the filtered view by `(geo_region, Category)`, sum
`revenue` and `Installs` within each group, and attach
`score = 0.5 * revenue + 0.5 * Installs`. -/
def opportunity_score (rows : List ERow) : List OppRow :=
  (List.insertionSort pairOrd ((rows.map (fun r => (r.geo_region, r.Category))).dedup)).map
    (fun k =>
      { geo_region := k.1
        Category := k.2
        revenue := ((rows.filter (fun r => decide ((r.geo_region, r.Category) = k))).map
          (fun r => r.revenue)).sum
        Installs := ((rows.filter (fun r => decide ((r.geo_region, r.Category) = k))).map
          (fun r => (r.Installs : ℚ))).sum
        score := 0.5 * ((rows.filter (fun r => decide ((r.geo_region, r.Category) = k))).map
            (fun r => r.revenue)).sum +
          0.5 * ((rows.filter (fun r => decide ((r.geo_region, r.Category) = k))).map
            (fun r => (r.Installs : ℚ))).sum })

/-- Line 146: `opportunity_score.sort_values('score', ascending=False).head(10)`. -/
def top_opportunities (rows : List ERow) : List OppRow :=
  (List.insertionSort scoreDesc (opportunity_score rows)).take 10

/-- Row mask with the zone conjunct removed: the remaining three filter
criteria.  Used to state that zone filtering is inert. -/
def rowMaskNoZone (s : Selection) (r : ERow) : Bool :=
  decide (r.Category ∈ s.categories) &&
  decide (r.geo_region ∈ s.regions) &&
  (decide (s.dateStart ≤ r.Released) && decide (r.Released ≤ s.dateEnd))

/-- Row predicate exactly as claim C4 words it: the zone conjunct demands a
true indicator among the selected zones, and is vacuous only when the table
has no zone indicator columns at all. -/
def c4ClaimMask (t : ETable) (s : Selection) (r : ERow) : Bool :=
  decide (r.Category ∈ s.categories) &&
  decide (r.geo_region ∈ s.regions) &&
  (if t.zoneCols.isEmpty then true else s.zones.any (fun z => indicator z r)) &&
  (decide (s.dateStart ≤ r.Released) && decide (r.Released ≤ s.dateEnd))

/-- Row predicate of the amended claim C4, written from the amended words:
the zone conjunct demands a true indicator among the selected zones whose
indicator column is present, and is vacuous whenever no selected zone has a
present indicator column (in particular when the zone selection is empty or
the table has no zone indicator columns). -/
def c4AmendedPred (t : ETable) (s : Selection) (r : ERow) : Prop :=
  r.Category ∈ s.categories ∧ r.geo_region ∈ s.regions ∧
  ((∃ z ∈ s.zones, z ∈ t.zoneCols) →
    ∃ z ∈ s.zones, z ∈ t.zoneCols ∧ indicator z r = true) ∧
  (s.dateStart ≤ r.Released ∧ r.Released ≤ s.dateEnd)

instance (t : ETable) (s : Selection) (r : ERow) : Decidable (c4AmendedPred t s r) := by
  unfold c4AmendedPred
  infer_instance

/-- First row of the worked scenario in spec §8. -/
def specRow1 : Row :=
  { Category := "Games", AppName := "A1", DeveloperId := "d1", geo_region := "NA",
    economic_zone := Zone.Developed, Installs := 100, Price := 0, Rating := 9/2,
    Released := 20210101 }

/-- Second row of the worked scenario in spec §8. -/
def specRow2 : Row :=
  { Category := "Games", AppName := "A2", DeveloperId := "d2", geo_region := "EU",
    economic_zone := Zone.Emerging, Installs := 10, Price := 5, Rating := 3,
    Released := 20220601 }

/-- The two-row table of the worked scenario in spec §8. -/
def specTable : Table := { rows := [specRow1, specRow2], hasZoneColumn := true }

/-- All-inclusive selection over `specTable` with the date range restricted
to the year 2021, as in the spec §8 scenario. -/
def sel2021 : Selection :=
  { categories := ["Games"], regions := ["NA", "EU"], zones := Zone.all,
    dateStart := 20210101, dateEnd := 20211231 }

/-- All-inclusive selection over `specTable`. -/
def selAll : Selection :=
  { categories := ["Games"], regions := ["NA", "EU"], zones := Zone.all,
    dateStart := 20210101, dateEnd := 20221231 }

/-- Selection equal to `selAll` except that the zone multiselect has been
emptied by the user. -/
def selNoZones : Selection :=
  { categories := ["Games"], regions := ["NA", "EU"], zones := [],
    dateStart := 20210101, dateEnd := 20221231 }

/-- Selection equal to `selAll` except that the category multiselect has
been emptied by the user. -/
def selNoCats : Selection :=
  { categories := [], regions := ["NA", "EU"], zones := Zone.all,
    dateStart := 20210101, dateEnd := 20221231 }

/-- A row by developer `a` with revenue 5. -/
def devRowA : Row :=
  { Category := "Games", AppName := "A", DeveloperId := "a", geo_region := "NA",
    economic_zone := Zone.Developed, Installs := 1, Price := 5, Rating := 4,
    Released := 20210101 }

/-- A row by developer `b`, also with revenue 5. -/
def devRowB : Row :=
  { Category := "Games", AppName := "B", DeveloperId := "b", geo_region := "NA",
    economic_zone := Zone.Developed, Installs := 1, Price := 5, Rating := 4,
    Released := 20210201 }

/-- A table with two developers of equal summed revenue. -/
def devTable : Table := { rows := [devRowA, devRowB], hasZoneColumn := true }

/-- All-inclusive selection over `devTable`. -/
def selDev : Selection :=
  { categories := ["Games"], regions := ["NA"], zones := Zone.all,
    dateStart := 20200101, dateEnd := 20221231 }

/-- A 2021 row with revenue 50, for the yearly-growth scenario of claim C8. -/
def c8RowA : Row :=
  { Category := "Games", AppName := "A", DeveloperId := "a", geo_region := "NA",
    economic_zone := Zone.Developed, Installs := 10, Price := 5, Rating := 4,
    Released := 20210101 }

/-- A 2022 row with revenue 100, for the yearly-growth scenario of claim C8. -/
def c8RowB : Row :=
  { Category := "Games", AppName := "B", DeveloperId := "b", geo_region := "NA",
    economic_zone := Zone.Developed, Installs := 20, Price := 5, Rating := 4,
    Released := 20220601 }

/-- Filtered view realising yearly revenue `{2021: 50, 2022: 100}`. -/
def c8Rows : List ERow := [enrichRow c8RowA, enrichRow c8RowB]

/-- The single opportunity row the `devTable` filtered view produces:
revenue 5 + 5, installs 1 + 1, score 0.5·10 + 0.5·2. -/
def c9Opp : OppRow :=
  { geo_region := "NA", Category := "Games", revenue := 10, Installs := 2, score := 6 }

/-! ## General lemmas about the grouping machinery -/

theorem zone_mem_all (z : Zone) : z ∈ Zone.all := by
  cases z <;> simp [Zone.all]

theorem zone_all_nodup : Zone.all.Nodup := by decide

theorem map_fst_groupSum {α κ : Type} [DecidableEq κ] (le : κ → κ → Prop) [DecidableRel le]
    (key : α → κ) (val : α → ℚ) (l : List α) :
    (groupSum le key val l).map Prod.fst = List.insertionSort le ((l.map key).dedup) := by
  unfold groupSum
  rw [List.map_map]
  exact List.map_id _

theorem nodup_groupSum_keys {α κ : Type} [DecidableEq κ] (le : κ → κ → Prop) [DecidableRel le]
    (key : α → κ) (val : α → ℚ) (l : List α) :
    ((groupSum le key val l).map Prod.fst).Nodup := by
  rw [map_fst_groupSum]
  exact ((List.perm_insertionSort le _).nodup_iff).mpr (List.nodup_dedup _)

theorem sum_map_ite_eq {κ M : Type} [DecidableEq κ] [AddCommMonoid M] (k0 : κ) (c : M) :
    ∀ (ks : List κ), ks.Nodup → k0 ∈ ks →
      (ks.map (fun k => if k0 = k then c else 0)).sum = c := by
  intro ks
  induction ks with
  | nil => intro _ hm; simp at hm
  | cons a ks ih =>
    intro hnd hm
    rcases List.mem_cons.mp hm with h | h
    · subst h
      have hnotin : k0 ∉ ks := (List.nodup_cons.mp hnd).1
      have hz : (ks.map (fun k => if k0 = k then c else 0)).sum = 0 := by
        apply List.sum_eq_zero
        intro x hx
        rcases List.mem_map.mp hx with ⟨b, hb, rfl⟩
        have hne : k0 ≠ b := fun hab => hnotin (hab ▸ hb)
        simp [hne]
      simp [hz]
    · have hne : k0 ≠ a := by
        rintro rfl
        exact (List.nodup_cons.mp hnd).1 h
      simp only [List.map_cons, List.sum_cons, if_neg hne, zero_add]
      exact ih (List.nodup_cons.mp hnd).2 h

theorem sum_groups {α κ : Type} [DecidableEq κ] (key : α → κ) (val : α → ℚ) (l : List α) :
    ∀ (ks : List κ), ks.Nodup → (∀ a ∈ l, key a ∈ ks) →
      (ks.map (fun k => ((l.filter (fun a => decide (key a = k))).map val).sum)).sum
        = (l.map val).sum := by
  induction l with
  | nil =>
    intro ks _ _
    simp
  | cons a l ih =>
    intro ks hnd hcov
    have hstep : ∀ k ∈ ks,
        (((a :: l).filter (fun x => decide (key x = k))).map val).sum
          = (if key a = k then val a else 0)
            + ((l.filter (fun x => decide (key x = k))).map val).sum := by
      intro k _
      by_cases h : key a = k
      · simp [List.filter_cons, h]
      · simp [List.filter_cons, h]
    rw [List.map_congr_left hstep, List.sum_map_add,
      sum_map_ite_eq (key a) (val a) ks hnd (hcov a (List.mem_cons_self a l)),
      ih ks hnd (fun x hx => hcov x (List.mem_cons_of_mem a hx))]
    simp

theorem sum_ite_one_eq_countP {α : Type} (p : α → Bool) (l : List α) :
    (l.map (fun a => if p a then (1 : ℚ) else 0)).sum = (l.countP p : ℚ) := by
  induction l with
  | nil => simp
  | cons a l ih =>
    by_cases h : p a
    · simp [List.countP_cons, h, ih, add_comm]
    · simp [List.countP_cons, h, ih]

theorem mem_sorted_dedup_map {α κ : Type} [DecidableEq κ] (le : κ → κ → Prop) [DecidableRel le]
    (key : α → κ) (l : List α) (k : κ) :
    k ∈ List.insertionSort le ((l.map key).dedup) ↔ ∃ a ∈ l, key a = k := by
  rw [List.mem_insertionSort, List.mem_dedup, List.mem_map]

theorem groupSum_comp {α : Type} (g : ℤ → ℤ) (key : α → ℤ) (val : α → ℚ) (l : List α) :
    groupSum intLe (fun p : ℤ × ℚ => g p.1) (fun p => p.2) (groupSum intLe key val l)
      = groupSum intLe (fun a => g (key a)) val l := by
  have hGmap : (groupSum intLe key val l).map (fun p => g p.1)
      = (List.insertionSort intLe ((l.map key).dedup)).map g := by
    unfold groupSum
    rw [List.map_map]
    rfl
  have hK1nd : (List.insertionSort intLe ((l.map key).dedup)).Nodup :=
    ((List.perm_insertionSort intLe _).nodup_iff).mpr (List.nodup_dedup _)
  have hkeys : List.insertionSort intLe
        ((((groupSum intLe key val l).map (fun p => g p.1)).dedup))
      = List.insertionSort intLe ((l.map (fun a => g (key a))).dedup) := by
    rw [hGmap]
    have pmid : List.Perm (((List.insertionSort intLe ((l.map key).dedup)).map g).dedup)
        ((l.map (fun a => g (key a))).dedup) := by
      apply (List.perm_ext_iff_of_nodup (List.nodup_dedup _) (List.nodup_dedup _)).mpr
      intro x
      simp only [List.mem_dedup, List.mem_map]
      constructor
      · rintro ⟨k, hk, rfl⟩
        rcases (mem_sorted_dedup_map intLe key l k).mp hk with ⟨a, ha, rfl⟩
        exact ⟨a, ha, rfl⟩
      · rintro ⟨a, ha, rfl⟩
        exact ⟨key a, (mem_sorted_dedup_map intLe key l (key a)).mpr ⟨a, ha, rfl⟩, rfl⟩
    exact List.eq_of_perm_of_sorted
      ((List.perm_insertionSort intLe _).trans
        (pmid.trans (List.perm_insertionSort intLe _).symm))
      (List.sorted_insertionSort intLe _) (List.sorted_insertionSort intLe _)
  have hval : ∀ k2 : ℤ,
      (((groupSum intLe key val l).filter (fun p => decide (g p.1 = k2))).map
        (fun p : ℤ × ℚ => p.2)).sum
      = ((l.filter (fun a => decide (g (key a) = k2))).map val).sum := by
    intro k2
    have hfm : (groupSum intLe key val l).filter (fun p => decide (g p.1 = k2))
        = ((List.insertionSort intLe ((l.map key).dedup)).filter
            (fun k => decide (g k = k2))).map
          (fun k => (k, ((l.filter (fun a => decide (key a = k))).map val).sum)) := by
      unfold groupSum
      rw [List.filter_map]
      rfl
    rw [hfm, List.map_map]
    have hcong : ∀ k ∈ (List.insertionSort intLe ((l.map key).dedup)).filter
        (fun k => decide (g k = k2)),
        ((fun p : ℤ × ℚ => p.2) ∘ fun k =>
            (k, ((l.filter (fun a => decide (key a = k))).map val).sum)) k
          = (((l.filter (fun a => decide (g (key a) = k2))).filter
              (fun a => decide (key a = k))).map val).sum := by
      intro k hk
      have hgk : g k = k2 := of_decide_eq_true (List.mem_filter.mp hk).2
      show ((l.filter (fun a => decide (key a = k))).map val).sum = _
      rw [List.filter_filter]
      congr 1
      congr 1
      apply List.filter_congr
      intro a _
      by_cases h : key a = k
      · simp [h, hgk]
      · simp [h]
    rw [List.map_congr_left hcong]
    apply sum_groups
    · exact List.Nodup.filter _ hK1nd
    · intro a ha
      rcases List.mem_filter.mp ha with ⟨hal, hpred⟩
      exact List.mem_filter.mpr
        ⟨(mem_sorted_dedup_map intLe key l (key a)).mpr ⟨a, hal, rfl⟩, hpred⟩
  show (List.insertionSort intLe
      (((groupSum intLe key val l).map (fun p => g p.1)).dedup)).map
        (fun k2 => (k2, (((groupSum intLe key val l).filter
          (fun p => decide (g p.1 = k2))).map (fun p : ℤ × ℚ => p.2)).sum))
    = (List.insertionSort intLe ((l.map (fun a => g (key a))).dedup)).map
        (fun k2 => (k2, ((l.filter (fun a => decide (g (key a) = k2))).map val).sum))
  rw [hkeys]
  apply List.map_congr_left
  intro k2 _
  exact congrArg (Prod.mk k2) (hval k2)

theorem find?_eq_of_unique {κ : Type} (p : κ → Bool) (l : List κ) (a : κ)
    (ha : a ∈ l) (hpa : p a = true) (huniq : ∀ b ∈ l, p b = true → b = a) :
    l.find? p = some a := by
  induction l with
  | nil => simp at ha
  | cons x l ih =>
    by_cases hx : p x = true
    · rw [List.find?_cons_of_pos _ hx]
      exact congrArg some (huniq x (List.mem_cons_self x l) hx)
    · rw [List.find?_cons_of_neg _ (by simp [hx])]
      have hal : a ∈ l := by
        rcases List.mem_cons.mp ha with h | h
        · exact absurd (h ▸ hpa) hx
        · exact h
      exact ih hal (fun b hb hpb => huniq b (List.mem_cons_of_mem x hb) hpb)

/-! ## Claim theorems -/

/-- C1: the claim says a missing data file yields a reported error, a null
table, and that every later stage is skipped so the render degrades
gracefully.  The code does report the error and return `None`, but the
module body then subscripts the `None` value on line 32, so the run crashes
with a `TypeError` instead of skipping the later stages. -/
theorem c1_missing_file_crashes (t : Table) :
    load_data false t = none ∧ load_error_reported false = true ∧
      script_preprocess false t = ScriptOutcome.crash :=
  ⟨rfl, rfl, rfl⟩

/-- C3: every row of the preprocessed table has `revenue = Installs × Price`
exactly, and revenue is a deterministic function of `Installs` and
`Price`. -/
theorem c3_revenue_exact :
    (∀ (t : Table) (er : ERow), er ∈ (enrich t).rows →
      er.revenue = (er.Installs : ℚ) * er.Price) ∧
    (∀ r₁ r₂ : Row, r₁.Installs = r₂.Installs → r₁.Price = r₂.Price →
      (enrichRow r₁).revenue = (enrichRow r₂).revenue) := by
  constructor
  · intro t er her
    rcases List.mem_map.mp her with ⟨r, _, rfl⟩
    rfl
  · intro r₁ r₂ hI hP
    simp [enrichRow, hI, hP]

/-- Witness for C3 at the second row of the spec §8 scenario table. -/
theorem c3_witness :
    (enrichRow specRow2).revenue
      = ((enrichRow specRow2).Installs : ℚ) * (enrichRow specRow2).Price :=
  c3_revenue_exact.1 specTable (enrichRow specRow2)
    (List.mem_map_of_mem enrichRow (by simp [specTable]))

/-- C5: the filtered view is a sublist of the table it filters, each of its
rows is (by identity) a row of the loaded table, and filtering with the
same criteria twice equals filtering once. -/
theorem c5_subset_idempotent :
    (∀ (et : ETable) (s : Selection), ((df_filtered et s).rows).Sublist et.rows) ∧
    (∀ (t : Table) (s : Selection) (er : ERow),
      er ∈ (df_filtered (enrich t) s).rows → er.toRow ∈ t.rows) ∧
    (∀ (et : ETable) (s : Selection), df_filtered (df_filtered et s) s = df_filtered et s) := by
  refine ⟨fun et s => List.filter_sublist _, ?_, ?_⟩
  · intro t s er her
    have h1 : er ∈ (enrich t).rows := (List.filter_sublist _).subset her
    rcases List.mem_map.mp h1 with ⟨r, hr, rfl⟩
    exact hr
  · intro et s
    unfold df_filtered
    congr 1
    rw [List.filter_filter]
    exact List.filter_congr (fun a _ => Bool.and_self _)

/-- Witness for C5: a concrete filtered row is a row of the loaded table. -/
theorem c5_witness : (enrichRow specRow1).toRow ∈ specTable.rows := by
  apply c5_subset_idempotent.2.1 specTable selAll
  have h : (df_filtered (enrich specTable) selAll).rows
      = [enrichRow specRow1, enrichRow specRow2] := by
    with_unfolding_all rfl
  rw [h]
  exact List.mem_cons_self _ _

/-- C2 as stated is false: emptying the zone multiselect empties the
`zone_columns` list, which makes the zone conjunct the literal `True`, so
the filtered view keeps every row passing the other criteria instead of
becoming empty. -/
theorem c2_counterexample : (df_filtered (enrich specTable) selNoZones).rows ≠ [] := by
  have h : (df_filtered (enrich specTable) selNoZones).rows
      = [enrichRow specRow1, enrichRow specRow2] := by
    with_unfolding_all rfl
  rw [h]
  simp

/-- C2 (amended): emptying the category or the region multiselect yields an
empty filtered view, over which the dependent aggregates give zero, `none`
or empty results without raising; emptying the zone multiselect instead
leaves the zone condition inert, so the view is that of the remaining
criteria. -/
theorem c2_amended :
    (∀ (et : ETable) (s : Selection), s.categories = [] → (df_filtered et s).rows = []) ∧
    (∀ (et : ETable) (s : Selection), s.regions = [] → (df_filtered et s).rows = []) ∧
    (total_revenue [] = 0 ∧ total_installs [] = 0 ∧ avg_rating [] = none ∧
      category_revenue [] = [] ∧ top_devs [] = [] ∧ top_opportunities [] = []) ∧
    (∀ (et : ETable) (s : Selection), s.zones = [] →
      (df_filtered et s).rows = et.rows.filter (rowMaskNoZone s)) := by
  refine ⟨?_, ?_, ?_, ?_⟩
  · intro et s h
    simp [df_filtered, rowMask, h]
  · intro et s h
    simp [df_filtered, rowMask, h]
  · exact ⟨rfl, rfl, rfl, rfl, rfl, rfl⟩
  · intro et s h
    show List.filter _ et.rows = _
    apply List.filter_congr
    intro r _
    simp [rowMask, rowMaskNoZone, zone_columns, h]

/-- Witness for C2 (amended): emptying the category multiselect over the
spec scenario table gives an empty view. -/
theorem c2_witness : (df_filtered (enrich specTable) selNoCats).rows = [] :=
  c2_amended.1 (enrich specTable) selNoCats rfl

/-- C4 as stated is false: with zone indicator columns present and the zone
selection emptied, the claim's predicate matches no row, but the code's
`... if zone_columns else True` keeps every row passing the other
criteria. -/
theorem c4_counterexample :
    (df_filtered (enrich specTable) selNoZones).rows
      ≠ (enrich specTable).rows.filter (c4ClaimMask (enrich specTable) selNoZones) := by
  have h1 : (df_filtered (enrich specTable) selNoZones).rows
      = [enrichRow specRow1, enrichRow specRow2] := by
    with_unfolding_all rfl
  have h2 : (enrich specTable).rows.filter (c4ClaimMask (enrich specTable) selNoZones)
      = [] := by
    with_unfolding_all rfl
  rw [h1, h2]
  simp

/-- C4 (amended): the filter returns exactly the rows satisfying the
conjunction of category membership, region membership, the inclusive date
interval, and the zone condition made vacuous whenever no selected zone has
a present indicator column; on the spec §8 table restricted to the year
2021 the view has one row, total revenue 0 and average rating 4.5. -/
theorem c4_amended :
    (∀ (et : ETable) (s : Selection),
      (df_filtered et s).rows = et.rows.filter (fun r => decide (c4AmendedPred et s r))) ∧
    ((df_filtered (enrich specTable) sel2021).rows = [enrichRow specRow1] ∧
      total_revenue (df_filtered (enrich specTable) sel2021).rows = 0 ∧
      avg_rating (df_filtered (enrich specTable) sel2021).rows = some (9/2)) := by
  constructor
  · intro et s
    apply List.filter_congr
    intro r _
    have hiff : rowMask (zone_columns et s.zones) s r = true ↔ c4AmendedPred et s r := by
      unfold rowMask c4AmendedPred
      simp only [Bool.and_eq_true, decide_eq_true_iff]
      constructor
      · rintro ⟨⟨⟨hc, hr⟩, hz⟩, hd⟩
        refine ⟨hc, hr, ?_, hd⟩
        rintro ⟨z0, hz0, hz0c⟩
        have hne : (zone_columns et s.zones).isEmpty = false := by
          cases hie : (zone_columns et s.zones).isEmpty
          · rfl
          · exfalso
            have hnil : zone_columns et s.zones = [] := List.isEmpty_iff.mp hie
            have hmem : z0 ∈ zone_columns et s.zones :=
              List.mem_filter.mpr ⟨hz0, by simpa using hz0c⟩
            rw [hnil] at hmem
            simp at hmem
        rw [hne] at hz
        have hz' : (zone_columns et s.zones).any (fun z => indicator z r) = true := by
          simpa using hz
        rcases List.any_eq_true.mp hz' with ⟨z, hzmem, hzind⟩
        rcases List.mem_filter.mp hzmem with ⟨hzsel, hzcol⟩
        exact ⟨z, hzsel, by simpa using hzcol, hzind⟩
      · rintro ⟨hc, hr, hz, hd⟩
        refine ⟨⟨⟨hc, hr⟩, ?_⟩, hd⟩
        cases hie : (zone_columns et s.zones).isEmpty
        · have hnonempty : zone_columns et s.zones ≠ [] := by
            intro hcontra
            rw [hcontra] at hie
            simp at hie
          rcases List.exists_mem_of_ne_nil _ hnonempty with ⟨z0, hz0⟩
          rcases List.mem_filter.mp hz0 with ⟨hz0s, hz0c⟩
          rcases hz ⟨z0, hz0s, by simpa using hz0c⟩ with ⟨z, hzs, hzc, hzi⟩
          have hany : (zone_columns et s.zones).any (fun z => indicator z r) = true :=
            List.any_eq_true.mpr ⟨z, List.mem_filter.mpr ⟨hzs, by simpa using hzc⟩, hzi⟩
          simpa using hany
        · simp
    cases hb : rowMask (zone_columns et s.zones) s r
    · cases hd : decide (c4AmendedPred et s r)
      · rfl
      · exact absurd (hiff.mpr (of_decide_eq_true hd)) (by simp [hb])
    · exact (decide_eq_true_iff.mpr (hiff.mp hb)).symm
  · refine ⟨?_, ?_, ?_⟩
    · with_unfolding_all rfl
    · with_unfolding_all rfl
    · with_unfolding_all rfl

/-- Witness for C4 (amended): the refinement instantiated at the spec
scenario table with the all-inclusive selection. -/
theorem c4_witness :
    (df_filtered (enrich specTable) selAll).rows
      = (enrich specTable).rows.filter
          (fun r => decide (c4AmendedPred (enrich specTable) selAll r)) :=
  c4_amended.1 (enrich specTable) selAll

/-- C6: when the `economic_zone` column is present, the indicator columns
produced by the expansion sum to exactly 1 on every row and the unique true
indicator recovers the row's original zone; when it is absent, no indicator
columns are created and zone filtering applies no exclusion. -/
theorem c6_zone_expansion :
    (∀ (t : Table) (r : Row), t.hasZoneColumn = true → r ∈ t.rows →
      (((enrich t).zoneCols.map
          (fun z => if indicator z (enrichRow r) then (1 : ℕ) else 0)).sum = 1 ∧
        (enrich t).zoneCols.find? (fun z => indicator z (enrichRow r))
          = some r.economic_zone)) ∧
    (∀ t : Table, t.hasZoneColumn = false → (enrich t).zoneCols = []) ∧
    (∀ (et : ETable) (s : Selection), et.zoneCols = [] →
      (df_filtered et s).rows = et.rows.filter (rowMaskNoZone s)) := by
  refine ⟨?_, ?_, ?_⟩
  · intro t r hz hr
    have hcols : (enrich t).zoneCols
        = Zone.all.filter (fun z => t.rows.any (fun r => r.economic_zone == z)) := by
      simp [enrich, presentZoneCols, hz]
    have hnd : ((enrich t).zoneCols).Nodup := by
      rw [hcols]
      exact List.Nodup.filter _ zone_all_nodup
    have hmem : r.economic_zone ∈ (enrich t).zoneCols := by
      rw [hcols]
      exact List.mem_filter.mpr
        ⟨zone_mem_all _, List.any_eq_true.mpr ⟨r, hr, by simp⟩⟩
    constructor
    · have hcong : ∀ z ∈ (enrich t).zoneCols,
          (if indicator z (enrichRow r) then (1 : ℕ) else 0)
            = (if r.economic_zone = z then 1 else 0) := by
        intro z _
        by_cases h : r.economic_zone = z
        · simp [indicator, enrichRow, h]
        · simp [indicator, enrichRow, h]
      rw [List.map_congr_left hcong]
      exact sum_map_ite_eq r.economic_zone 1 _ hnd hmem
    · apply find?_eq_of_unique _ _ r.economic_zone hmem
      · simp [indicator, enrichRow]
      · intro b _ hpb
        have : r.economic_zone = b := by simpa [indicator, enrichRow] using hpb
        exact this.symm
  · intro t h
    simp [enrich, presentZoneCols, h]
  · intro et s h
    show List.filter _ et.rows = _
    apply List.filter_congr
    intro r _
    simp [rowMask, rowMaskNoZone, zone_columns, h]

/-- Witness for C6 at the first row of the spec scenario table. -/
theorem c6_witness :
    ((enrich specTable).zoneCols.map
        (fun z => if indicator z (enrichRow specRow1) then (1 : ℕ) else 0)).sum = 1 ∧
      (enrich specTable).zoneCols.find? (fun z => indicator z (enrichRow specRow1))
        = some specRow1.economic_zone :=
  c6_zone_expansion.1 specTable specRow1 rfl (by simp [specTable])

/-- C7 as stated is false: `nlargest(10)` keeps ties, so two developers with
equal summed revenue yield a list that is not strictly descending. -/
theorem c7_counterexample :
    top_devs (df_filtered (enrich devTable) selDev).rows = [("a", 5), ("b", 5)] ∧
      ¬ List.Pairwise (fun a b : String × ℚ => b.2 < a.2)
        (top_devs (df_filtered (enrich devTable) selDev).rows) := by
  have h : top_devs (df_filtered (enrich devTable) selDev).rows = [("a", 5), ("b", 5)] := by
    with_unfolding_all rfl
  refine ⟨h, ?_⟩
  rw [h]
  intro hp
  have h5 : ((5 : ℚ) < 5) := (List.pairwise_cons.mp hp).1 ("b", 5) (by simp)
  exact absurd h5 (by norm_num)

/-- C7 (amended): for every filtered view the top-developers list has length
at most 10, is non-strictly descending by summed revenue (ties are kept by
`nlargest`), and contains no duplicate developer id. -/
theorem c7_amended (t : ETable) (s : Selection) :
    (top_devs (df_filtered t s).rows).length ≤ 10 ∧
      List.Pairwise revDesc (top_devs (df_filtered t s).rows) ∧
      List.Pairwise (fun a b : String × ℚ => a.1 ≠ b.1)
        (top_devs (df_filtered t s).rows) := by
  refine ⟨?_, ?_, ?_⟩
  · show (List.take 10 _).length ≤ 10
    rw [List.length_take]
    exact min_le_left _ _
  · exact List.Pairwise.sublist (List.take_sublist _ _)
      (List.sorted_insertionSort revDesc _)
  · have h1 : ((groupSum strOrd (fun r => r.DeveloperId) (fun r => r.revenue)
        (df_filtered t s).rows).map Prod.fst).Nodup :=
      nodup_groupSum_keys strOrd _ _ _
    have h2 : List.Pairwise (fun a b : String × ℚ => a.1 ≠ b.1)
        (groupSum strOrd (fun r => r.DeveloperId) (fun r => r.revenue)
          (df_filtered t s).rows) :=
      List.pairwise_map.mp h1
    have h3 : List.Pairwise (fun a b : String × ℚ => a.1 ≠ b.1)
        (List.insertionSort revDesc
          (groupSum strOrd (fun r => r.DeveloperId) (fun r => r.revenue)
            (df_filtered t s).rows)) :=
      ((List.perm_insertionSort revDesc _).pairwise_iff
        (fun h => Ne.symm h)).mpr h2
    exact List.Pairwise.sublist (List.take_sublist _ _) h3

/-- C10: each value of the `Economic Zone Revenue Share` panel is the
column-wise sum of that zone's boolean indicator column, i.e. the number of
filtered rows in the zone — and not those rows' summed revenue, although
the column is labelled `Revenue`: the concrete view below shows 2 rows in
the `Developed` zone whose revenues sum to 10. -/
theorem c10_zone_panel :
    (∀ et : ETable, zone_revenue et
      = et.zoneCols.map (fun z =>
          (zoneName z, ((et.rows.countP (fun r => indicator z r) : ℕ) : ℚ)))) ∧
    (zone_revenue (df_filtered (enrich devTable) selDev) = [("Developed", 2)] ∧
      total_revenue ((df_filtered (enrich devTable) selDev).rows.filter
        (fun r => indicator Zone.Developed r)) = 10 ∧
      (2 : ℚ) ≠ 10) := by
  constructor
  · intro et
    unfold zone_revenue
    apply List.map_congr_left
    intro z _
    exact congrArg (Prod.mk (zoneName z)) (sum_ite_one_eq_countP _ _)
  · refine ⟨?_, ?_, ?_⟩
    · with_unfolding_all rfl
    · with_unfolding_all rfl
    · norm_num

/-- C9: the opportunity panel shows at most 10 `(geo_region, Category)`
groups of the filtered view, in descending score order; each shown group
carries `score = 0.5·(summed revenue) + 0.5·(summed Installs)` computed over
its rows of the filtered view, and no group left out scores higher than any
group shown. -/
theorem c9_opportunity (t : ETable) (s : Selection) :
    (top_opportunities (df_filtered t s).rows).length ≤ 10 ∧
      List.Pairwise scoreDesc (top_opportunities (df_filtered t s).rows) ∧
      (∀ o ∈ top_opportunities (df_filtered t s).rows,
        o ∈ opportunity_score (df_filtered t s).rows ∧
        o.score = 0.5 * o.revenue + 0.5 * o.Installs ∧
        o.revenue = (((df_filtered t s).rows.filter
          (fun r => decide ((r.geo_region, r.Category) = (o.geo_region, o.Category)))).map
            (fun r => r.revenue)).sum ∧
        o.Installs = (((df_filtered t s).rows.filter
          (fun r => decide ((r.geo_region, r.Category) = (o.geo_region, o.Category)))).map
            (fun r => (r.Installs : ℚ))).sum) ∧
      (∀ o ∈ opportunity_score (df_filtered t s).rows,
        o ∉ top_opportunities (df_filtered t s).rows →
        ∀ o' ∈ top_opportunities (df_filtered t s).rows, o.score ≤ o'.score) := by
  refine ⟨?_, ?_, ?_, ?_⟩
  · show (List.take 10 _).length ≤ 10
    rw [List.length_take]
    exact min_le_left _ _
  · exact List.Pairwise.sublist (List.take_sublist _ _)
      (List.sorted_insertionSort scoreDesc _)
  · intro o ho
    have hmem : o ∈ opportunity_score (df_filtered t s).rows :=
      (List.perm_insertionSort scoreDesc _).mem_iff.mp
        ((List.take_sublist _ _).subset ho)
    refine ⟨hmem, ?_, ?_, ?_⟩
    · rcases List.mem_map.mp hmem with ⟨k, _, rfl⟩
      rfl
    · rcases List.mem_map.mp hmem with ⟨k, _, rfl⟩
      show (((df_filtered t s).rows.filter
          (fun r => decide ((r.geo_region, r.Category) = k))).map
            (fun r => r.revenue)).sum = _
      rw [show ((k.1, k.2) : String × String) = k from rfl]
    · rcases List.mem_map.mp hmem with ⟨k, _, rfl⟩
      show (((df_filtered t s).rows.filter
          (fun r => decide ((r.geo_region, r.Category) = k))).map
            (fun r => (r.Installs : ℚ))).sum = _
      rw [show ((k.1, k.2) : String × String) = k from rfl]
  · intro o ho hnot o' ho'
    have hoL : o ∈ List.insertionSort scoreDesc (opportunity_score (df_filtered t s).rows) :=
      (List.perm_insertionSort scoreDesc _).mem_iff.mpr ho
    have hsplit : o ∈ List.take 10 (List.insertionSort scoreDesc
          (opportunity_score (df_filtered t s).rows))
        ∨ o ∈ List.drop 10 (List.insertionSort scoreDesc
          (opportunity_score (df_filtered t s).rows)) := by
      rw [← List.take_append_drop 10 (List.insertionSort scoreDesc
        (opportunity_score (df_filtered t s).rows))] at hoL
      exact List.mem_append.mp hoL
    rcases hsplit with h | h
    · exact absurd h hnot
    · have hsor : List.Pairwise scoreDesc
          (List.take 10 (List.insertionSort scoreDesc
              (opportunity_score (df_filtered t s).rows))
            ++ List.drop 10 (List.insertionSort scoreDesc
              (opportunity_score (df_filtered t s).rows))) := by
        rw [List.take_append_drop]
        exact List.sorted_insertionSort scoreDesc _
      exact (List.pairwise_append.mp hsor).2.2 o' ho' o h

/-- Witness for C9: the single opportunity group of the `devTable` view is
shown with score `0.5·10 + 0.5·2 = 6`. -/
theorem c9_witness :
    c9Opp ∈ opportunity_score (df_filtered (enrich devTable) selDev).rows ∧
      c9Opp.score = 0.5 * c9Opp.revenue + 0.5 * c9Opp.Installs ∧
      c9Opp.revenue = (((df_filtered (enrich devTable) selDev).rows.filter
        (fun r => decide ((r.geo_region, r.Category)
          = (c9Opp.geo_region, c9Opp.Category)))).map (fun r => r.revenue)).sum ∧
      c9Opp.Installs = (((df_filtered (enrich devTable) selDev).rows.filter
        (fun r => decide ((r.geo_region, r.Category)
          = (c9Opp.geo_region, c9Opp.Category)))).map (fun r => (r.Installs : ℚ))).sum := by
  apply (c9_opportunity (enrich devTable) selDev).2.2.1 c9Opp
  have h : top_opportunities (df_filtered (enrich devTable) selDev).rows = [c9Opp] := by
    with_unfolding_all rfl
  rw [h]
  exact List.mem_cons_self _ _

/-- C8: the growth series is the year-over-year percent change of revenue
summed per year of the `Released` date (the two-stage grouping by full date
and then by year collapses to a single per-year grouping), the first year's
growth is 0, and the yearly revenue `{2021: 50, 2022: 100}` yields the
series `{2021: 0, 2022: 100}` (percent). -/
theorem c8_growth :
    (∀ rows : List ERow, yearly_revenue rows
      = groupSum intLe (fun r => yearOf r.Released) (fun r => r.revenue) rows) ∧
    (∀ (rows : List ERow) (p : ℤ × Option ℚ),
      (yearly_growth rows).head? = some p → p.2 = some 0) ∧
    yearly_growth c8Rows = [(2021, some 0), (2022, some 100)] := by
  refine ⟨?_, ?_, ?_⟩
  · intro rows
    exact groupSum_comp yearOf (fun r => r.Released) (fun r => r.revenue) rows
  · intro rows p hp
    unfold yearly_growth at hp
    rcases hyr : yearly_revenue rows with _ | ⟨⟨y, v⟩, rest⟩
    · rw [hyr] at hp
      simp at hp
    · rw [hyr] at hp
      simp only [List.head?_cons, Option.some.injEq] at hp
      rw [← hp]
  · with_unfolding_all rfl

/-- Witness for C8: the head of the concrete growth series has growth 0. -/
theorem c8_witness :
    (yearly_growth c8Rows).head? = some ((2021 : ℤ), (some (0 : ℚ))) ∧
      (((2021 : ℤ), (some (0 : ℚ))) : ℤ × Option ℚ).2 = some 0 := by
  have hh : (yearly_growth c8Rows).head? = some ((2021 : ℤ), (some (0 : ℚ))) := by
    rw [c8_growth.2.2]
    rfl
  exact ⟨hh, c8_growth.2.1 c8Rows ((2021 : ℤ), (some (0 : ℚ))) hh⟩

end Dashboard
